import Mathlib

/-!
Verification of the Mandelbrot escape-time fractal core
(`src/mandelbrot_core.py`, `src/coordinate_transforms.py`,
`src/color_mapping.py`, history handling in `src/mandelbrot_gui.py`).

The Python floats are modelled by exact rationals (`ℚ`), complex values by
pairs of rationals, numpy 2-D arrays by `List (List _)`.  The escape test
`abs(z) > 2.0` is modelled by the exactly equivalent `normSq z > 4`.
-/

namespace Mandelbrot

/-- A complex number with rational components (model of Python `complex`). -/
structure QComplex where
  re : ℚ
  im : ℚ
  deriving DecidableEq, Repr

/-- One step of the Mandelbrot recurrence `z <- z*z + c`
(complex multiplication written out on components). -/
def step (z c : QComplex) : QComplex :=
  ⟨z.re * z.re - z.im * z.im + c.re, 2 * z.re * z.im + c.im⟩

/-- Squared magnitude of a complex value; `abs z > 2.0` iff `normSq z > 4`. -/
def normSq (z : QComplex) : ℚ :=
  z.re * z.re + z.im * z.im

/-- The escape test applied at the top of each loop iteration:
`abs(z) > 2.0`, expressed exactly on rationals. -/
def escaped (z : QComplex) : Prop :=
  4 < normSq z

instance (z : QComplex) : Decidable (escaped z) := by
  unfold escaped; infer_instance

/-- The orbit of `c`: `orbit c 0 = 0`, `orbit c (n+1) = (orbit c n)^2 + c`.
`orbit c n` is the value of `z` tested at 1-based loop step `n+1` of
`mandelbrot_iterations`. -/
def orbit (c : QComplex) : ℕ → QComplex
  | 0 => ⟨0, 0⟩
  | n + 1 => step (orbit c n) c

/-- The `for i in range(1, max_iter+1)` loop of `mandelbrot_iterations`
(and of the identical `_mandelbrot_iterations_fast`): `fuel` is the number
of loop steps remaining; the returned count is the number of non-escaped
steps completed, i.e. `i - 1` on escape at step `i`, or all of `fuel`. -/
def mandelbrotLoop (c z : QComplex) : ℕ → ℕ
  | 0 => 0
  | fuel + 1 => if escaped z then 0 else mandelbrotLoop c (step z c) fuel + 1

/-- `mandelbrot_iterations(c, max_iter)` from `src/mandelbrot_core.py`:
start from `z = 0`, loop `i = 1 .. max_iter`, return `i - 1` on the first
`abs(z) > 2.0`, else `max_iter`.  `_mandelbrot_iterations_fast` is the same
code without logging and is modelled by the same function. -/
def mandelbrot_iterations (c : QComplex) (max_iter : ℕ) : ℕ :=
  mandelbrotLoop c ⟨0, 0⟩ max_iter

lemma mandelbrotLoop_le (c z : QComplex) (fuel : ℕ) :
    mandelbrotLoop c z fuel ≤ fuel := by
  induction fuel generalizing z with
  | zero => simp [mandelbrotLoop]
  | succ n ih =>
    simp only [mandelbrotLoop]
    split
    · exact Nat.zero_le _
    · exact Nat.succ_le_succ (ih _)

lemma step_orbit (c : QComplex) (k : ℕ) :
    step (orbit c k) c = orbit c (k + 1) := rfl

lemma mandelbrotLoop_eq_fuel (c : QComplex) (k fuel : ℕ)
    (h : ∀ j, j < fuel → ¬ escaped (orbit c (k + j))) :
    mandelbrotLoop c (orbit c k) fuel = fuel := by
  induction fuel generalizing k with
  | zero => simp [mandelbrotLoop]
  | succ n ih =>
    have h0 : ¬ escaped (orbit c k) := by
      have := h 0 (Nat.succ_pos n); simpa using this
    simp only [mandelbrotLoop, if_neg h0, step_orbit]
    have := ih (k + 1) (fun j hj => by
      have := h (j + 1) (Nat.succ_lt_succ hj)
      simpa [Nat.add_assoc, Nat.add_comm 1 j] using this)
    omega

lemma mandelbrotLoop_eq_first (c : QComplex) (k fuel j : ℕ)
    (hj : j < fuel) (hesc : escaped (orbit c (k + j)))
    (hmin : ∀ j', j' < j → ¬ escaped (orbit c (k + j'))) :
    mandelbrotLoop c (orbit c k) fuel = j := by
  induction j generalizing k fuel with
  | zero =>
    obtain ⟨f, rfl⟩ : ∃ f, fuel = f + 1 := ⟨fuel - 1, by omega⟩
    simp only [Nat.add_zero] at hesc
    simp [mandelbrotLoop, if_pos hesc]
  | succ m ih =>
    obtain ⟨f, rfl⟩ : ∃ f, fuel = f + 1 := ⟨fuel - 1, by omega⟩
    have h0 : ¬ escaped (orbit c k) := by
      have := hmin 0 (Nat.succ_pos m); simpa using this
    simp only [mandelbrotLoop, if_neg h0, step_orbit]
    have hm : m < f := by omega
    have hesc' : escaped (orbit c (k + 1 + m)) := by
      have : k + 1 + m = k + (m + 1) := by omega
      rw [this]; exact hesc
    have hmin' : ∀ j', j' < m → ¬ escaped (orbit c (k + 1 + j')) := by
      intro j' hj'
      have := hmin (j' + 1) (Nat.succ_lt_succ hj')
      have e : k + (j' + 1) = k + 1 + j' := by omega
      rw [e] at this; exact this
    rw [ih (k + 1) f hm hesc' hmin']

lemma orbit_zero_eq (c : QComplex) : orbit c 0 = ⟨0, 0⟩ := rfl

/-- **C1.** `mandelbrot_iterations(c, max_iter)` returns a value in
`[0, max_iter]`; it returns `i - 1` when `i` is the first 1-based loop step
at which `|z| > 2.0` holds (the `z` tested at step `i` being `orbit c (i-1)`,
since the test precedes the recurrence), and `max_iter` when no tested `z`
escapes within `max_iter` steps. -/
theorem mandelbrot_iterations_spec (c : QComplex) (max_iter : ℕ)
    (h : 1 ≤ max_iter) :
    mandelbrot_iterations c max_iter ≤ max_iter ∧
    (∀ i, 1 ≤ i → i ≤ max_iter → escaped (orbit c (i - 1)) →
      (∀ j, 1 ≤ j → j < i → ¬ escaped (orbit c (j - 1))) →
      mandelbrot_iterations c max_iter = i - 1) ∧
    ((∀ j, j < max_iter → ¬ escaped (orbit c j)) →
      mandelbrot_iterations c max_iter = max_iter) := by
  refine ⟨mandelbrotLoop_le c ⟨0, 0⟩ max_iter, ?_, ?_⟩
  · intro i h1 h2 hesc hmin
    have h' : i - 1 < max_iter := by omega
    have hesc' : escaped (orbit c (0 + (i - 1))) := by simpa using hesc
    have hmin' : ∀ j', j' < i - 1 → ¬ escaped (orbit c (0 + j')) := by
      intro j' hj'
      have := hmin (j' + 1) (by omega) (by omega)
      simpa using this
    have := mandelbrotLoop_eq_first c 0 max_iter (i - 1) h' hesc' hmin'
    rw [orbit_zero_eq] at this
    exact this
  · intro hnone
    have := mandelbrotLoop_eq_fuel c 0 max_iter (fun j hj => by
      simpa using hnone j hj)
    rw [orbit_zero_eq] at this
    exact this

/-- Witness for `mandelbrot_iterations_spec` at `c = 3`, `max_iter = 2`. -/
theorem mandelbrot_iterations_spec_witness :
    mandelbrot_iterations ⟨3, 0⟩ 2 ≤ 2 ∧
    (∀ i, 1 ≤ i → i ≤ 2 → escaped (orbit ⟨3, 0⟩ (i - 1)) →
      (∀ j, 1 ≤ j → j < i → ¬ escaped (orbit ⟨3, 0⟩ (j - 1))) →
      mandelbrot_iterations ⟨3, 0⟩ 2 = i - 1) ∧
    ((∀ j, j < 2 → ¬ escaped (orbit ⟨3, 0⟩ j)) →
      mandelbrot_iterations ⟨3, 0⟩ 2 = 2) :=
  mandelbrot_iterations_spec ⟨3, 0⟩ 2 (by decide)

lemma mandelbrotLoop_mono (c z : QComplex) (m1 m2 : ℕ) (h : m1 ≤ m2) :
    mandelbrotLoop c z m1 ≤ mandelbrotLoop c z m2 := by
  induction m1 generalizing z m2 with
  | zero => simp [mandelbrotLoop]
  | succ n ih =>
    obtain ⟨g, rfl⟩ : ∃ g, m2 = g + 1 := ⟨m2 - 1, by omega⟩
    simp only [mandelbrotLoop]
    split
    · exact Nat.zero_le _
    · exact Nat.succ_le_succ (ih _ _ (by omega))

/-- **C10.** The escape-time kernel is monotone in the iteration cap, and a
point whose orbit escapes within the smaller cap reports the same count
under both caps. -/
theorem mandelbrot_iterations_mono (c : QComplex) (m1 m2 : ℕ)
    (h1 : 1 ≤ m1) (h12 : m1 ≤ m2) :
    mandelbrot_iterations c m1 ≤ mandelbrot_iterations c m2 ∧
    ((∃ j, j < m1 ∧ escaped (orbit c j)) →
      mandelbrot_iterations c m1 = mandelbrot_iterations c m2) := by
  refine ⟨mandelbrotLoop_mono c ⟨0, 0⟩ m1 m2 h12, ?_⟩
  rintro ⟨j, hj, hesc⟩
  have hex : ∃ j, escaped (orbit c j) := ⟨j, hesc⟩
  classical
  set j0 := Nat.find hex with hj0
  have hesc0 : escaped (orbit c j0) := Nat.find_spec hex
  have hmin0 : ∀ j', j' < j0 → ¬ escaped (orbit c j') := fun j' hj' =>
    Nat.find_min hex hj'
  have hj0lt : j0 < m1 := lt_of_le_of_lt (Nat.find_le hesc) hj
  have e1 : mandelbrotLoop c (orbit c 0) m1 = j0 :=
    mandelbrotLoop_eq_first c 0 m1 j0 hj0lt (by simpa using hesc0)
      (fun j' hj' => by simpa using hmin0 j' hj')
  have e2 : mandelbrotLoop c (orbit c 0) m2 = j0 :=
    mandelbrotLoop_eq_first c 0 m2 j0 (by omega) (by simpa using hesc0)
      (fun j' hj' => by simpa using hmin0 j' hj')
  rw [orbit_zero_eq] at e1 e2
  unfold mandelbrot_iterations
  rw [e1, e2]

/-- Witness for `mandelbrot_iterations_mono`: `c = 3` escapes at orbit
index 1, caps 2 and 5. -/
theorem mandelbrot_iterations_mono_witness :
    mandelbrot_iterations ⟨3, 0⟩ 2 ≤ mandelbrot_iterations ⟨3, 0⟩ 5 ∧
    ((∃ j, j < 2 ∧ escaped (orbit ⟨3, 0⟩ j)) →
      mandelbrot_iterations ⟨3, 0⟩ 2 = mandelbrot_iterations ⟨3, 0⟩ 5) :=
  mandelbrot_iterations_mono ⟨3, 0⟩ 2 5 (by decide) (by decide)

/-- The per-pixel sample point of `_mandelbrot_kernel`:
`x_step = (x_max - x_min)/width`, `real = x_min + col * x_step`,
`imag = y_max - row * y_step` (y flipped for screen coordinates). -/
def kernelPoint (col row width height : ℕ)
    (x_min x_max y_min y_max : ℚ) : QComplex :=
  ⟨x_min + (col : ℚ) * ((x_max - x_min) / (width : ℚ)),
   y_max - (row : ℚ) * ((y_max - y_min) / (height : ℚ))⟩

/-- `_mandelbrot_kernel(width, height, x_min, x_max, y_min, y_max, max_iter)`
from `src/mandelbrot_core.py`: a `(height, width)` grid where cell
`(row, col)` holds `_mandelbrot_iterations_fast` at the sampled point. -/
def mandelbrot_kernel (width height : ℕ) (x_min x_max y_min y_max : ℚ)
    (max_iter : ℕ) : List (List ℕ) :=
  (List.range height).map (fun row =>
    (List.range width).map (fun col =>
      mandelbrot_iterations
        (kernelPoint col row width height x_min x_max y_min y_max) max_iter))

/-- `mandelbrot_array` delegates directly to `_mandelbrot_kernel`. -/
def mandelbrot_array (width height : ℕ) (x_min x_max y_min y_max : ℚ)
    (max_iter : ℕ) : List (List ℕ) :=
  mandelbrot_kernel width height x_min x_max y_min y_max max_iter

/-- Cell access `g[row, col]` in a list-of-rows grid. -/
def cellAt {α : Type} (g : List (List α)) (row col : ℕ)
    (hr : row < g.length) (hc : col < (g.get ⟨row, hr⟩).length) : α :=
  (g.get ⟨row, hr⟩).get ⟨col, hc⟩

lemma mandelbrot_array_length (width height : ℕ)
    (x_min x_max y_min y_max : ℚ) (max_iter : ℕ) :
    (mandelbrot_array width height x_min x_max y_min y_max max_iter).length
      = height := by
  simp [mandelbrot_array, mandelbrot_kernel]

lemma mandelbrot_array_cell (width height : ℕ)
    (x_min x_max y_min y_max : ℚ) (max_iter : ℕ) (row col : ℕ)
    (hr : row < (mandelbrot_array width height x_min x_max y_min y_max
      max_iter).length)
    (hc : col < ((mandelbrot_array width height x_min x_max y_min y_max
      max_iter).get ⟨row, hr⟩).length) :
    cellAt (mandelbrot_array width height x_min x_max y_min y_max max_iter)
        row col hr hc
      = mandelbrot_iterations
          (kernelPoint col row width height x_min x_max y_min y_max)
          max_iter := by
  simp [cellAt, mandelbrot_array, mandelbrot_kernel, List.get_eq_getElem]

lemma mandelbrot_iterations_pos (c : QComplex) (max_iter : ℕ)
    (h : 1 ≤ max_iter) : 1 ≤ mandelbrot_iterations c max_iter := by
  obtain ⟨f, rfl⟩ : ∃ f, max_iter = f + 1 := ⟨max_iter - 1, by omega⟩
  have h0 : ¬ escaped (⟨0, 0⟩ : QComplex) := by
    simp [escaped, normSq]
  unfold mandelbrot_iterations
  simp only [mandelbrotLoop, if_neg h0]
  omega

lemma mandelbrot_iterations_eq_max_iff (c : QComplex) (max_iter : ℕ) :
    mandelbrot_iterations c max_iter = max_iter ↔
      ∀ j, j < max_iter → ¬ escaped (orbit c j) := by
  constructor
  · intro heq
    by_contra hcon
    push_neg at hcon
    obtain ⟨j, hj, hesc⟩ := hcon
    have hex : ∃ j, escaped (orbit c j) := ⟨j, hesc⟩
    classical
    have hj0lt : Nat.find hex < max_iter :=
      lt_of_le_of_lt (Nat.find_le hesc) hj
    have := mandelbrotLoop_eq_first c 0 max_iter (Nat.find hex) hj0lt
      (by simpa using Nat.find_spec hex)
      (fun j' hj' => by simpa using Nat.find_min hex hj')
    rw [orbit_zero_eq] at this
    unfold mandelbrot_iterations at heq
    omega
  · intro hnone
    have := mandelbrotLoop_eq_fuel c 0 max_iter (fun j hj => by
      simpa using hnone j hj)
    rw [orbit_zero_eq] at this
    exact this

/-- **C2.** Every cell of the grid produced by `mandelbrot_array` lies in
`[1, max_iter]`, and a cell equals `max_iter` exactly when no orbit value
tested within `max_iter` steps exceeds magnitude 2. -/
theorem mandelbrot_array_bounds (width height max_iter : ℕ)
    (x_min x_max y_min y_max : ℚ)
    (hx : x_min < x_max) (hy : y_min < y_max)
    (hw : 1 ≤ width) (hh : 1 ≤ height) (hm : 1 ≤ max_iter)
    (row col : ℕ)
    (hr : row < (mandelbrot_array width height x_min x_max y_min y_max
      max_iter).length)
    (hc : col < ((mandelbrot_array width height x_min x_max y_min y_max
      max_iter).get ⟨row, hr⟩).length) :
    1 ≤ cellAt (mandelbrot_array width height x_min x_max y_min y_max
        max_iter) row col hr hc ∧
    cellAt (mandelbrot_array width height x_min x_max y_min y_max
        max_iter) row col hr hc ≤ max_iter ∧
    (cellAt (mandelbrot_array width height x_min x_max y_min y_max
        max_iter) row col hr hc = max_iter ↔
      ∀ j, j < max_iter →
        ¬ escaped (orbit (kernelPoint col row width height
          x_min x_max y_min y_max) j)) := by
  rw [mandelbrot_array_cell]
  exact ⟨mandelbrot_iterations_pos _ _ hm, mandelbrotLoop_le _ _ _,
    mandelbrot_iterations_eq_max_iff _ _⟩

/-- Witness for `mandelbrot_array_bounds` on a 1x1 grid over `[0,4]x[0,4]`
with `max_iter = 1`. -/
theorem mandelbrot_array_bounds_witness :
    1 ≤ cellAt (mandelbrot_array 1 1 0 4 0 4 1) 0 0 (by decide) (by decide) ∧
    cellAt (mandelbrot_array 1 1 0 4 0 4 1) 0 0 (by decide) (by decide) ≤ 1 ∧
    (cellAt (mandelbrot_array 1 1 0 4 0 4 1) 0 0 (by decide) (by decide) = 1 ↔
      ∀ j, j < 1 → ¬ escaped (orbit (kernelPoint 0 0 1 1 0 4 0 4) j)) :=
  mandelbrot_array_bounds 1 1 1 0 4 0 4 (by norm_num) (by norm_num)
    (by decide) (by decide) (by decide) 0 0 (by decide) (by decide)

/-- **C3.** The grid cell at `(row, col)` equals the escape-time kernel
applied to `complex(x_min + col*(x_max - x_min)/width,
y_max - row*(y_max - y_min)/height)` with the same `max_iter`; in
particular image row 0 samples `y_max` (the top of the region). -/
theorem mandelbrot_array_samples (width height max_iter : ℕ)
    (x_min x_max y_min y_max : ℚ)
    (hx : x_min < x_max) (hy : y_min < y_max)
    (hw : 1 ≤ width) (hh : 1 ≤ height) (hm : 1 ≤ max_iter)
    (row col : ℕ) (hrow : row < height) (hcol : col < width)
    (hr : row < (mandelbrot_array width height x_min x_max y_min y_max
      max_iter).length)
    (hc : col < ((mandelbrot_array width height x_min x_max y_min y_max
      max_iter).get ⟨row, hr⟩).length) :
    cellAt (mandelbrot_array width height x_min x_max y_min y_max max_iter)
        row col hr hc
      = mandelbrot_iterations
          ⟨x_min + (col : ℚ) * (x_max - x_min) / (width : ℚ),
           y_max - (row : ℚ) * (y_max - y_min) / (height : ℚ)⟩
          max_iter := by
  rw [mandelbrot_array_cell]
  have : kernelPoint col row width height x_min x_max y_min y_max
      = ⟨x_min + (col : ℚ) * (x_max - x_min) / (width : ℚ),
         y_max - (row : ℚ) * (y_max - y_min) / (height : ℚ)⟩ := by
    unfold kernelPoint
    congr 1 <;> ring
  rw [this]

/-- Witness for `mandelbrot_array_samples` at the top-left pixel of a 2x2
grid over `[0,4]x[0,4]` with `max_iter = 1`. -/
theorem mandelbrot_array_samples_witness :
    cellAt (mandelbrot_array 2 2 0 4 0 4 1) 0 0 (by decide) (by decide)
      = mandelbrot_iterations
          ⟨0 + ((0 : ℕ) : ℚ) * (4 - 0) / ((2 : ℕ) : ℚ),
           4 - ((0 : ℕ) : ℚ) * (4 - 0) / ((2 : ℕ) : ℚ)⟩ 1 :=
  mandelbrot_array_samples 2 2 1 0 4 0 4 (by norm_num) (by norm_num)
    (by decide) (by decide) (by decide) 0 0 (by decide) (by decide)
    (by decide) (by decide)

/-- Python `round` on a rational (one-argument `round`: nearest integer,
ties to even), as used by `complex_to_pixel` via `int(round(x))`. -/
def pyRound (q : ℚ) : ℤ :=
  let f := ⌊q⌋
  let r := q - (f : ℚ)
  if r < 1 / 2 then f
  else if 1 / 2 < r then f + 1
  else if f % 2 = 0 then f else f + 1

/-- `pixel_to_complex(pixel_x, pixel_y, width, height, x_min, x_max, y_min,
y_max)` from `src/coordinate_transforms.py`: normalize the pixel by
`width - 1` / `height - 1` (0.5 for degenerate dimension), interpolate,
flipping the y axis. -/
def pixel_to_complex (pixel_x pixel_y width height : ℕ)
    (x_min x_max y_min y_max : ℚ) : QComplex :=
  let norm_x : ℚ := if 1 < width then (pixel_x : ℚ) / ((width : ℚ) - 1)
    else 1 / 2
  let norm_y : ℚ := if 1 < height then (pixel_y : ℚ) / ((height : ℚ) - 1)
    else 1 / 2
  ⟨x_min + norm_x * (x_max - x_min), y_max - norm_y * (y_max - y_min)⟩

/-- `complex_to_pixel(complex_point, width, height, x_min, x_max, y_min,
y_max)` from `src/coordinate_transforms.py`: normalize (0.5 for a
degenerate region), scale to `width - 1` / `height - 1`, round, clamp. -/
def complex_to_pixel (complex_point : QComplex) (width height : ℕ)
    (x_min x_max y_min y_max : ℚ) : ℤ × ℤ :=
  let norm_x : ℚ := if x_max ≠ x_min
    then (complex_point.re - x_min) / (x_max - x_min) else 1 / 2
  let norm_y : ℚ := if y_max ≠ y_min
    then (y_max - complex_point.im) / (y_max - y_min) else 1 / 2
  let pixel_x : ℤ := if 1 < width then pyRound (norm_x * ((width : ℚ) - 1))
    else 0
  let pixel_y : ℤ := if 1 < height then pyRound (norm_y * ((height : ℚ) - 1))
    else 0
  (max 0 (min ((width : ℤ) - 1) pixel_x),
   max 0 (min ((height : ℤ) - 1) pixel_y))

lemma pyRound_intCast (n : ℤ) : pyRound (n : ℚ) = n := by
  unfold pyRound
  simp [Int.floor_intCast]

/-- **C4 counterexample.** On a 2x2 image over `[0,1]x[0,1]`, for pixel
`col = 1, row = 0` the Grid Evaluator samples real part `1/2`
(step `(x_max - x_min)/width`) while `pixel_to_complex` yields real part
`1` (step `(x_max - x_min)/(width - 1)`): the two mappings differ. -/
theorem kernelPoint_ne_pixel_to_complex :
    kernelPoint 1 0 2 2 0 1 0 1 ≠ pixel_to_complex 1 0 2 2 0 1 0 1 := by
  unfold kernelPoint pixel_to_complex
  simp only [QComplex.mk.injEq, not_and]
  intro h
  norm_num at h

/-- **C4 (amended).** For images at least 2 pixels wide and tall, the Grid
Evaluator's mapping and `pixel_to_complex` agree at pixel `(0, 0)`, both
sending it to `(x_min, y_max)` — so both place image row 0 at the top of
the region — but they are not equal at every pixel (the Grid Evaluator
steps by `(x_max - x_min)/width`, `pixel_to_complex` by
`(x_max - x_min)/(width - 1)`). -/
theorem kernelPoint_pixel_to_complex_origin (width height : ℕ)
    (x_min x_max y_min y_max : ℚ)
    (hw : 2 ≤ width) (hh : 2 ≤ height) :
    kernelPoint 0 0 width height x_min x_max y_min y_max
        = ⟨x_min, y_max⟩ ∧
    pixel_to_complex 0 0 width height x_min x_max y_min y_max
        = ⟨x_min, y_max⟩ := by
  constructor
  · unfold kernelPoint
    congr 1 <;> push_cast <;> ring
  · unfold pixel_to_complex
    have hw' : 1 < width := by omega
    have hh' : 1 < height := by omega
    simp only [if_pos hw', if_pos hh', Nat.cast_zero]
    congr 1 <;> push_cast <;> ring

/-- Witness for `kernelPoint_pixel_to_complex_origin` on a 2x2 image over
`[0,1]x[0,1]`. -/
theorem kernelPoint_pixel_to_complex_origin_witness :
    kernelPoint 0 0 2 2 0 1 0 1 = ⟨0, 1⟩ ∧
    pixel_to_complex 0 0 2 2 0 1 0 1 = ⟨0, 1⟩ :=
  kernelPoint_pixel_to_complex_origin 2 2 0 1 0 1 (by decide) (by decide)

lemma pyRound_natCast (n : ℕ) : pyRound (n : ℚ) = (n : ℤ) := by
  have h : ((n : ℚ)) = (((n : ℤ)) : ℚ) := by push_cast; ring
  rw [h, pyRound_intCast]

/-- For a nondegenerate region and in-bounds pixel, the round trip
`complex_to_pixel (pixel_to_complex p)` recovers `p` exactly. -/
lemma complex_to_pixel_roundtrip (px py width height : ℕ)
    (x_min x_max y_min y_max : ℚ)
    (hx : x_min < x_max) (hy : y_min < y_max)
    (hpx : px < width) (hpy : py < height) :
    complex_to_pixel
        (pixel_to_complex px py width height x_min x_max y_min y_max)
        width height x_min x_max y_min y_max
      = ((px : ℤ), (py : ℤ)) := by
  have hxne : x_max ≠ x_min := ne_of_gt hx
  have hyne : y_max ≠ y_min := ne_of_gt hy
  have hdx : x_max - x_min ≠ 0 := sub_ne_zero.mpr hxne
  have hdy : y_max - y_min ≠ 0 := sub_ne_zero.mpr hyne
  unfold complex_to_pixel pixel_to_complex
  simp only [if_pos hxne, if_pos hyne, Prod.mk.injEq]
  constructor
  · by_cases hw1 : 1 < width
    · simp only [if_pos hw1]
      have hwq : ((width : ℚ) - 1) ≠ 0 := by
        have : (1 : ℚ) < (width : ℚ) := by exact_mod_cast hw1
        linarith
      have key : ((x_min + (px : ℚ) / ((width : ℚ) - 1) * (x_max - x_min))
          - x_min) / (x_max - x_min) * ((width : ℚ) - 1) = (px : ℚ) := by
        field_simp
        ring
      rw [key, pyRound_natCast]
      omega
    · simp only [if_neg hw1]
      omega
  · by_cases hh1 : 1 < height
    · simp only [if_pos hh1]
      have hhq : ((height : ℚ) - 1) ≠ 0 := by
        have : (1 : ℚ) < (height : ℚ) := by exact_mod_cast hh1
        linarith
      have key : (y_max - (y_max - (py : ℚ) / ((height : ℚ) - 1)
          * (y_max - y_min))) / (y_max - y_min) * ((height : ℚ) - 1)
          = (py : ℚ) := by
        field_simp
        ring
      rw [key, pyRound_natCast]
      omega
    · simp only [if_neg hh1]
      omega

/-- **C5.** `complex_to_pixel (pixel_to_complex p)` over the same region
and dimensions returns a pixel within ±1 of `p` in each axis (here in fact
exactly `p`). -/
theorem complex_to_pixel_pixel_to_complex_close (px py width height : ℕ)
    (x_min x_max y_min y_max : ℚ)
    (hx : x_min < x_max) (hy : y_min < y_max)
    (hw : 1 ≤ width) (hh : 1 ≤ height)
    (hpx : px < width) (hpy : py < height) :
    |(complex_to_pixel
        (pixel_to_complex px py width height x_min x_max y_min y_max)
        width height x_min x_max y_min y_max).1 - (px : ℤ)| ≤ 1 ∧
    |(complex_to_pixel
        (pixel_to_complex px py width height x_min x_max y_min y_max)
        width height x_min x_max y_min y_max).2 - (py : ℤ)| ≤ 1 := by
  rw [complex_to_pixel_roundtrip px py width height x_min x_max y_min y_max
    hx hy hpx hpy]
  simp

/-- Witness for `complex_to_pixel_pixel_to_complex_close` at pixel `(1, 0)`
of a 2x2 image over `[0,1]x[0,1]`. -/
theorem complex_to_pixel_pixel_to_complex_close_witness :
    |(complex_to_pixel (pixel_to_complex 1 0 2 2 0 1 0 1)
        2 2 0 1 0 1).1 - ((1 : ℕ) : ℤ)| ≤ 1 ∧
    |(complex_to_pixel (pixel_to_complex 1 0 2 2 0 1 0 1)
        2 2 0 1 0 1).2 - ((0 : ℕ) : ℤ)| ≤ 1 :=
  complex_to_pixel_pixel_to_complex_close 1 0 2 2 0 1 0 1 (by norm_num)
    (by norm_num) (by decide) (by decide) (by decide) (by decide)

/-- `ViewBounds` from `src/coordinate_transforms.py`: a viewing region in
complex coordinates plus the pixel dimensions it is rasterized to. -/
structure ViewBounds where
  x_min : ℚ
  x_max : ℚ
  y_min : ℚ
  y_max : ℚ
  width : ℕ
  height : ℕ
  deriving DecidableEq, Repr

/-- `ViewBounds.pixel_to_complex`, delegating to the module-level
`pixel_to_complex` with these bounds. -/
def ViewBounds.pixelToComplex (vb : ViewBounds) (pixel_x pixel_y : ℕ) :
    QComplex :=
  pixel_to_complex pixel_x pixel_y vb.width vb.height
    vb.x_min vb.x_max vb.y_min vb.y_max

/-- `ViewBounds.zoom_to_region(top_left, bottom_right)`: convert both
corner pixels to complex coordinates, take min/max on each axis, keep the
pixel dimensions. -/
def ViewBounds.zoomToRegion (vb : ViewBounds)
    (top_left bottom_right : ℕ × ℕ) : ViewBounds :=
  let tl := vb.pixelToComplex top_left.1 top_left.2
  let br := vb.pixelToComplex bottom_right.1 bottom_right.2
  { x_min := min tl.re br.re
    x_max := max tl.re br.re
    y_min := min tl.im br.im
    y_max := max tl.im br.im
    width := vb.width
    height := vb.height }

/-- **C6.** For in-bounds corner pixels, `zoom_to_region(a, b)` and
`zoom_to_region(b, a)` produce the identical resulting view region, which
carries the same pixel width and height as the original bounds. -/
theorem zoomToRegion_comm (vb : ViewBounds) (a b : ℕ × ℕ)
    (ha1 : a.1 < vb.width) (ha2 : a.2 < vb.height)
    (hb1 : b.1 < vb.width) (hb2 : b.2 < vb.height) :
    vb.zoomToRegion a b = vb.zoomToRegion b a ∧
    (vb.zoomToRegion a b).width = vb.width ∧
    (vb.zoomToRegion a b).height = vb.height := by
  refine ⟨?_, rfl, rfl⟩
  unfold ViewBounds.zoomToRegion
  simp [ViewBounds.mk.injEq, min_comm, max_comm]

/-- Witness for `zoomToRegion_comm` on a 4x4 view of `[0,1]x[0,1]` with
corners `(0, 0)` and `(3, 2)`. -/
theorem zoomToRegion_comm_witness :
    (ViewBounds.mk 0 1 0 1 4 4).zoomToRegion (0, 0) (3, 2)
        = (ViewBounds.mk 0 1 0 1 4 4).zoomToRegion (3, 2) (0, 0) ∧
    ((ViewBounds.mk 0 1 0 1 4 4).zoomToRegion (0, 0) (3, 2)).width = 4 ∧
    ((ViewBounds.mk 0 1 0 1 4 4).zoomToRegion (0, 0) (3, 2)).height = 4 :=
  zoomToRegion_comm (ViewBounds.mk 0 1 0 1 4 4) (0, 0) (3, 2)
    (by decide) (by decide) (by decide) (by decide)

/-- The ASCII single-quote character, as a string. -/
def quoteMark : String :=
  String.singleton (Char.ofNat 39)

/-- Python `int()` truncation toward zero on a rational. -/
def pyInt (q : ℚ) : ℤ :=
  if q < 0 then ⌈q⌉ else ⌊q⌋

/-- Python float `%` (result has the sign of the divisor), used for
`h % 2` in the rainbow palette. -/
def pyMod (a b : ℚ) : ℚ :=
  a - b * (⌊a / b⌋ : ℚ)

/-- `_default_palette(t)` from `src/color_mapping.py`. -/
def default_palette (t : ℚ) : ℤ × ℤ × ℤ :=
  if t < 1 / 4 then
    let factor := t / (1 / 4)
    (pyInt (factor * 0), pyInt (factor * 50), pyInt (100 + factor * 155))
  else if t < 1 / 2 then
    let factor := (t - 1 / 4) / (1 / 4)
    (pyInt (factor * 0), pyInt (50 + factor * 205), 255)
  else if t < 3 / 4 then
    let factor := (t - 1 / 2) / (1 / 4)
    (pyInt (factor * 255), 255, pyInt (255 - factor * 255))
  else
    let factor := (t - 3 / 4) / (1 / 4)
    (255, pyInt (255 - factor * 100), pyInt (factor * 50))

/-- `_hot_palette(t)` from `src/color_mapping.py`. -/
def hot_palette (t : ℚ) : ℤ × ℤ × ℤ :=
  if t < 33 / 100 then
    let factor := t / (33 / 100)
    (pyInt (factor * 255), 0, 0)
  else if t < 66 / 100 then
    let factor := (t - 33 / 100) / (33 / 100)
    (255, pyInt (factor * 255), 0)
  else
    let factor := (t - 66 / 100) / (34 / 100)
    (255, 255, pyInt (factor * 255))

/-- `_cool_palette(t)` from `src/color_mapping.py`. -/
def cool_palette (t : ℚ) : ℤ × ℤ × ℤ :=
  if t < 1 / 2 then
    let factor := t / (1 / 2)
    (0, pyInt (factor * 255), pyInt (100 + factor * 155))
  else
    let factor := (t - 1 / 2) / (1 / 2)
    (0, 255, pyInt (255 - factor * 255))

/-- `_grayscale_palette(t)` from `src/color_mapping.py`. -/
def grayscale_palette (t : ℚ) : ℤ × ℤ × ℤ :=
  let value := pyInt (t * 255)
  (value, value, value)

/-- `_rainbow_palette(t)` from `src/color_mapping.py` (HSV to RGB with
`hue = t*360`, full saturation and value). -/
def rainbow_palette (t : ℚ) : ℤ × ℤ × ℤ :=
  let hue := t * 360
  let saturation : ℚ := 1
  let value : ℚ := 1
  let h := hue / 60
  let c := value * saturation
  let x := c * (1 - |pyMod h 2 - 1|)
  let m := value - c
  let rgb1 : ℚ × ℚ × ℚ :=
    if 0 ≤ h ∧ h < 1 then (c, x, 0)
    else if 1 ≤ h ∧ h < 2 then (x, c, 0)
    else if 2 ≤ h ∧ h < 3 then (0, c, x)
    else if 3 ≤ h ∧ h < 4 then (0, x, c)
    else if 4 ≤ h ∧ h < 5 then (x, 0, c)
    else (c, 0, x)
  (pyInt ((rgb1.1 + m) * 255), pyInt ((rgb1.2.1 + m) * 255),
   pyInt ((rgb1.2.2 + m) * 255))

/-- `get_available_palettes()`: the keys of `_PALETTES`, in definition
order. -/
def get_available_palettes : List String :=
  ["default", "hot", "cool", "grayscale", "rainbow"]

/-- The `ValueError` message raised for an unknown palette name. -/
def unknownPaletteMessage (palette : String) : String :=
  "Unknown palette " ++ quoteMark ++ palette ++ quoteMark
    ++ ". Available: " ++ String.intercalate ", " get_available_palettes

/-- `iterations_to_rgb(iterations, max_iter, palette)` from
`src/color_mapping.py`; the `ValueError` raise is modelled by
`Except.error`. -/
def iterations_to_rgb (iterations max_iter : ℤ) (palette : String) :
    Except String (ℤ × ℤ × ℤ) :=
  if palette ∉ get_available_palettes then
    Except.error (unknownPaletteMessage palette)
  else if max_iter ≤ iterations then Except.ok (0, 0, 0)
  else
    let t : ℚ := (iterations : ℚ) / (max_iter : ℚ)
    if palette = "default" then Except.ok (default_palette t)
    else if palette = "hot" then Except.ok (hot_palette t)
    else if palette = "cool" then Except.ok (cool_palette t)
    else if palette = "grayscale" then Except.ok (grayscale_palette t)
    else if palette = "rainbow" then Except.ok (rainbow_palette t)
    else Except.ok (default_palette t)

/-- `_apply_palette_direct(iterations, max_iter, palette)`: the scalar
colour computation used by the array path (no validity check, identical
dispatch including the `default` fallback). -/
def apply_palette_direct (iterations max_iter : ℤ) (palette : String) :
    ℤ × ℤ × ℤ :=
  if max_iter ≤ iterations then (0, 0, 0)
  else
    let t : ℚ := (iterations : ℚ) / (max_iter : ℚ)
    if palette = "default" then default_palette t
    else if palette = "hot" then hot_palette t
    else if palette = "cool" then cool_palette t
    else if palette = "grayscale" then grayscale_palette t
    else if palette = "rainbow" then rainbow_palette t
    else default_palette t

/-- Storage of an RGB triple into the `dtype=np.uint8` output array:
each channel is reduced modulo 256. -/
def toUInt8Cell (v : ℤ × ℤ × ℤ) : ℤ × ℤ × ℤ :=
  (v.1 % 256, v.2.1 % 256, v.2.2 % 256)

/-- `iterations_to_rgb_array(iterations, max_iter, palette)` from
`src/color_mapping.py`: validity check, then per-cell
`_apply_palette_direct` stored into a uint8 image. -/
def iterations_to_rgb_array (grid : List (List ℤ)) (max_iter : ℤ)
    (palette : String) : Except String (List (List (ℤ × ℤ × ℤ))) :=
  if palette ∉ get_available_palettes then
    Except.error (unknownPaletteMessage palette)
  else
    Except.ok (grid.map (fun rowL => rowL.map (fun it =>
      toUInt8Cell (apply_palette_direct it max_iter palette))))

lemma pyInt_range (q : ℚ) (h0 : 0 ≤ q) (h1 : q < 256) :
    0 ≤ pyInt q ∧ pyInt q ≤ 255 := by
  rw [pyInt, if_neg (not_lt.mpr h0)]
  refine ⟨Int.floor_nonneg.mpr h0, ?_⟩
  have : ⌊q⌋ < (256 : ℤ) := Int.floor_lt.mpr (by exact_mod_cast h1)
  omega

/-- All three channels lie in the byte range `[0, 255]`. -/
abbrev inRange (v : ℤ × ℤ × ℤ) : Prop :=
  0 ≤ v.1 ∧ v.1 ≤ 255 ∧ 0 ≤ v.2.1 ∧ v.2.1 ≤ 255 ∧ 0 ≤ v.2.2 ∧ v.2.2 ≤ 255

lemma default_palette_inRange (t : ℚ) (h0 : 0 ≤ t) (h1 : t < 1) :
    inRange (default_palette t) := by
  unfold default_palette
  split_ifs with h2 h3 h4 <;>
    (dsimp only
     refine ⟨?_, ?_, ?_, ?_, ?_, ?_⟩ <;>
       first
         | exact (pyInt_range _ (by linarith) (by linarith)).1
         | exact (pyInt_range _ (by linarith) (by linarith)).2
         | norm_num)

lemma hot_palette_inRange (t : ℚ) (h0 : 0 ≤ t) (h1 : t < 1) :
    inRange (hot_palette t) := by
  unfold hot_palette
  split_ifs with h2 h3 <;>
    (dsimp only
     refine ⟨?_, ?_, ?_, ?_, ?_, ?_⟩ <;>
       first
         | exact (pyInt_range _ (by linarith) (by linarith)).1
         | exact (pyInt_range _ (by linarith) (by linarith)).2
         | norm_num)

lemma cool_palette_inRange (t : ℚ) (h0 : 0 ≤ t) (h1 : t < 1) :
    inRange (cool_palette t) := by
  unfold cool_palette
  split_ifs with h2 <;>
    (dsimp only
     refine ⟨?_, ?_, ?_, ?_, ?_, ?_⟩ <;>
       first
         | exact (pyInt_range _ (by linarith) (by linarith)).1
         | exact (pyInt_range _ (by linarith) (by linarith)).2
         | norm_num)

lemma grayscale_palette_inRange (t : ℚ) (h0 : 0 ≤ t) (h1 : t < 1) :
    inRange (grayscale_palette t) := by
  unfold grayscale_palette
  refine ⟨?_, ?_, ?_, ?_, ?_, ?_⟩ <;>
    first
      | exact (pyInt_range _ (by linarith) (by linarith)).1
      | exact (pyInt_range _ (by linarith) (by linarith)).2

lemma pyMod_two_nonneg_lt (a : ℚ) : 0 ≤ pyMod a 2 ∧ pyMod a 2 < 2 := by
  unfold pyMod
  constructor
  · have := Int.floor_le (a / 2)
    linarith
  · have := Int.lt_floor_add_one (a / 2)
    linarith

lemma rainbow_palette_inRange (t : ℚ) (h0 : 0 ≤ t) (h1 : t < 1) :
    inRange (rainbow_palette t) := by
  unfold rainbow_palette
  have hm1 := (pyMod_two_nonneg_lt (t * 360 / 60)).1
  have hm2 := (pyMod_two_nonneg_lt (t * 360 / 60)).2
  have habs1 : |pyMod (t * 360 / 60) 2 - 1| ≤ 1 :=
    abs_le.mpr ⟨by linarith, by linarith⟩
  have habs0 : 0 ≤ |pyMod (t * 360 / 60) 2 - 1| := abs_nonneg _
  dsimp only
  split_ifs <;>
    (dsimp only
     refine ⟨?_, ?_, ?_, ?_, ?_, ?_⟩ <;>
       first
         | exact (pyInt_range _ (by linarith) (by linarith)).1
         | exact (pyInt_range _ (by linarith) (by linarith)).2)

lemma apply_palette_direct_inRange (its max_iter : ℤ) (palette : String)
    (h0 : 0 ≤ its) (hm : 1 ≤ max_iter) :
    inRange (apply_palette_direct its max_iter palette) := by
  by_cases h1 : max_iter ≤ its
  · unfold apply_palette_direct
    rw [if_pos h1]
    decide
  · have hlt : its < max_iter := lt_of_not_le h1
    have hmq : (0 : ℚ) < (max_iter : ℚ) := by
      exact_mod_cast lt_of_lt_of_le Int.zero_lt_one hm
    have ht0 : (0 : ℚ) ≤ (its : ℚ) / (max_iter : ℚ) :=
      div_nonneg (by exact_mod_cast h0) (le_of_lt hmq)
    have ht1 : (its : ℚ) / (max_iter : ℚ) < 1 :=
      (div_lt_one hmq).mpr (by exact_mod_cast hlt)
    unfold apply_palette_direct
    rw [if_neg h1]
    split_ifs <;>
      first
        | exact default_palette_inRange _ ht0 ht1
        | exact hot_palette_inRange _ ht0 ht1
        | exact cool_palette_inRange _ ht0 ht1
        | exact grayscale_palette_inRange _ ht0 ht1
        | exact rainbow_palette_inRange _ ht0 ht1

lemma toUInt8Cell_eq_self (v : ℤ × ℤ × ℤ) (h : inRange v) :
    toUInt8Cell v = v := by
  obtain ⟨a, b, c⟩ := v
  obtain ⟨h1, h2, h3, h4, h5, h6⟩ := h
  dsimp only at h1 h2 h3 h4 h5 h6
  simp only [toUInt8Cell]
  rw [Int.emod_eq_of_lt h1 (by omega), Int.emod_eq_of_lt h3 (by omega),
    Int.emod_eq_of_lt h5 (by omega)]

lemma iterations_to_rgb_eq_direct (its max_iter : ℤ) (palette : String)
    (hp : palette ∈ get_available_palettes) :
    iterations_to_rgb its max_iter palette
      = Except.ok (apply_palette_direct its max_iter palette) := by
  unfold iterations_to_rgb apply_palette_direct
  rw [if_neg (not_not_intro hp)]
  split_ifs <;> rfl

lemma cellAt_map {α β : Type} (g : α → β) (l : List (List α)) (row col : ℕ)
    (hr2 : row < (l.map (fun r : List α => r.map g)).length)
    (hc2 : col < ((l.map (fun r : List α => r.map g)).get ⟨row, hr2⟩).length)
    (hr : row < l.length) (hc : col < (l.get ⟨row, hr⟩).length) :
    cellAt (l.map (fun r : List α => r.map g)) row col hr2 hc2
      = g (cellAt l row col hr hc) := by
  simp [cellAt, List.get_eq_getElem, List.getElem_map]

/-- **C7 counterexample.** At iteration value `-300` with `max_iter = 1`
and the valid palette `grayscale`, the scalar form returns the raw triple
`(-76500, -76500, -76500)` while the array form stores the uint8-reduced
`(44, 44, 44)`: the array cell differs from the scalar result. -/
theorem iterations_to_rgb_array_scalar_mismatch :
    iterations_to_rgb (-300) 1 "grayscale"
        = Except.ok ((-76500 : ℤ), (-76500 : ℤ), (-76500 : ℤ)) ∧
    iterations_to_rgb_array [[(-300 : ℤ)]] 1 "grayscale"
        = Except.ok [[((44 : ℤ), (44 : ℤ), (44 : ℤ))]] ∧
    ((-76500 : ℤ), (-76500 : ℤ), (-76500 : ℤ))
        ≠ ((44 : ℤ), (44 : ℤ), (44 : ℤ)) := by
  refine ⟨?_, ?_, by decide⟩
  · norm_num [iterations_to_rgb, get_available_palettes, grayscale_palette,
      pyInt, show ¬("grayscale" = "default") by decide,
      show ¬("grayscale" = "hot") by decide,
      show ¬("grayscale" = "cool") by decide]
    rw [show ((-76500 : ℚ)) = (((-76500 : ℤ)) : ℚ) by norm_num,
      Int.ceil_intCast]
  · norm_num [iterations_to_rgb_array, get_available_palettes,
      apply_palette_direct, grayscale_palette, pyInt, toUInt8Cell,
      show ¬("grayscale" = "default") by decide,
      show ¬("grayscale" = "hot") by decide,
      show ¬("grayscale" = "cool") by decide]
    rw [show ((-76500 : ℚ)) = (((-76500 : ℤ)) : ℚ) by norm_num,
      Int.ceil_intCast]
    decide

/-- **C7 (amended).** For `max_iter ≥ 1`, a grid of nonnegative iteration
counts (as every IterationGrid is), and a valid palette, the RGB image
produced by `iterations_to_rgb_array` has at every cell exactly the triple
returned by the scalar `iterations_to_rgb` on that cell. -/
theorem iterations_to_rgb_array_matches_scalar
    (grid : List (List ℤ)) (max_iter : ℤ) (palette : String)
    (hm : 1 ≤ max_iter) (hp : palette ∈ get_available_palettes)
    (hgrid : ∀ rowL ∈ grid, ∀ v ∈ rowL, 0 ≤ v) :
    (∃ img, iterations_to_rgb_array grid max_iter palette
      = Except.ok img) ∧
    (∀ img, iterations_to_rgb_array grid max_iter palette = Except.ok img →
      ∀ row col (hr : row < grid.length)
        (hc : col < (grid.get ⟨row, hr⟩).length)
        (hr2 : row < img.length)
        (hc2 : col < (img.get ⟨row, hr2⟩).length),
        iterations_to_rgb (cellAt grid row col hr hc) max_iter palette
          = Except.ok (cellAt img row col hr2 hc2)) := by
  have harr : iterations_to_rgb_array grid max_iter palette
      = Except.ok (grid.map (fun rowL : List ℤ => rowL.map (fun it =>
          toUInt8Cell (apply_palette_direct it max_iter palette)))) := by
    unfold iterations_to_rgb_array
    rw [if_neg (not_not_intro hp)]
  refine ⟨⟨_, harr⟩, ?_⟩
  intro img himg row col hr hc hr2 hc2
  rw [himg] at harr
  have himg' : img = grid.map (fun rowL : List ℤ => rowL.map (fun it =>
      toUInt8Cell (apply_palette_direct it max_iter palette))) :=
    Except.ok.inj harr
  subst himg'
  rw [cellAt_map _ _ _ _ _ _ hr hc]
  have h0cell : 0 ≤ cellAt grid row col hr hc := by
    unfold cellAt
    exact hgrid _ (List.get_mem _ _ _) _ (List.get_mem _ _ _)
  rw [toUInt8Cell_eq_self _
    (apply_palette_direct_inRange _ _ _ h0cell hm)]
  exact iterations_to_rgb_eq_direct _ _ _ hp

/-- Witness for `iterations_to_rgb_array_matches_scalar` on the grid
`[[1]]` with `max_iter = 1` and the default palette. -/
theorem iterations_to_rgb_array_matches_scalar_witness :
    (∃ img, iterations_to_rgb_array [[(1 : ℤ)]] 1 "default"
      = Except.ok img) ∧
    (∀ img, iterations_to_rgb_array [[(1 : ℤ)]] 1 "default"
        = Except.ok img →
      ∀ row col (hr : row < ([[(1 : ℤ)]] : List (List ℤ)).length)
        (hc : col < (([[(1 : ℤ)]] : List (List ℤ)).get ⟨row, hr⟩).length)
        (hr2 : row < img.length)
        (hc2 : col < (img.get ⟨row, hr2⟩).length),
        iterations_to_rgb (cellAt [[(1 : ℤ)]] row col hr hc) 1 "default"
          = Except.ok (cellAt img row col hr2 hc2)) :=
  iterations_to_rgb_array_matches_scalar [[(1 : ℤ)]] 1 "default"
    (by decide) (by decide) (by decide)

/-- `sub` occurs as a contiguous substring of `s`. -/
def strContains (s sub : String) : Prop :=
  sub.data <:+: s.data

/-- **C8.** An unknown palette name makes both `iterations_to_rgb` and
`iterations_to_rgb_array` fail with the `ValueError` message naming the
requested palette and the list of valid names (no output is produced);
a valid palette name makes both succeed. -/
theorem palette_validation (palette : String) (its max_iter : ℤ)
    (grid : List (List ℤ)) :
    (palette ∉ get_available_palettes →
      iterations_to_rgb its max_iter palette
          = Except.error (unknownPaletteMessage palette) ∧
      iterations_to_rgb_array grid max_iter palette
          = Except.error (unknownPaletteMessage palette) ∧
      strContains (unknownPaletteMessage palette) palette ∧
      strContains (unknownPaletteMessage palette)
        "default, hot, cool, grayscale, rainbow") ∧
    (palette ∈ get_available_palettes →
      (∃ v, iterations_to_rgb its max_iter palette = Except.ok v) ∧
      (∃ img, iterations_to_rgb_array grid max_iter palette
        = Except.ok img)) := by
  constructor
  · intro hnot
    refine ⟨?_, ?_, ?_, ?_⟩
    · unfold iterations_to_rgb
      rw [if_pos hnot]
    · unfold iterations_to_rgb_array
      rw [if_pos hnot]
    · unfold strContains unknownPaletteMessage
      refine ⟨("Unknown palette " ++ quoteMark).data,
        (quoteMark ++ ". Available: "
          ++ String.intercalate ", " get_available_palettes).data, ?_⟩
      simp [String.data_append, List.append_assoc]
    · unfold strContains unknownPaletteMessage
      have hinter : String.intercalate ", " get_available_palettes
          = "default, hot, cool, grayscale, rainbow" := by decide
      rw [hinter]
      refine ⟨("Unknown palette " ++ quoteMark ++ palette ++ quoteMark
        ++ ". Available: ").data, [], ?_⟩
      simp [String.data_append, List.append_assoc]
  · intro hp
    constructor
    · unfold iterations_to_rgb
      rw [if_neg (not_not_intro hp)]
      split_ifs <;> exact ⟨_, rfl⟩
    · unfold iterations_to_rgb_array
      rw [if_neg (not_not_intro hp)]
      exact ⟨_, rfl⟩

/-- Witness for `palette_validation`: the invalid name `magenta` and the
valid name `hot`. -/
theorem palette_validation_witness :
    (iterations_to_rgb 5 10 "magenta"
        = Except.error (unknownPaletteMessage "magenta") ∧
      iterations_to_rgb_array [[(1 : ℤ)]] 10 "magenta"
        = Except.error (unknownPaletteMessage "magenta") ∧
      strContains (unknownPaletteMessage "magenta") "magenta" ∧
      strContains (unknownPaletteMessage "magenta")
        "default, hot, cool, grayscale, rainbow") ∧
    ((∃ v, iterations_to_rgb 5 10 "hot" = Except.ok v) ∧
      (∃ img, iterations_to_rgb_array [[(1 : ℤ)]] 10 "hot"
        = Except.ok img)) :=
  ⟨(palette_validation "magenta" 5 10 [[(1 : ℤ)]]).1 (by decide),
   (palette_validation "hot" 5 10 [[(1 : ℤ)]]).2 (by decide)⟩

/-- `MandelbrotGUI._save_to_history` from `src/mandelbrot_gui.py`: append
the current bounds tuple unless it duplicates the most recent entry, then
`pop(0)` when the length exceeds `max_history` (10 in the GUI). -/
def save_to_history (max_history : ℕ)
    (zoom_history : List (ℚ × ℚ × ℚ × ℚ))
    (current_bounds : ℚ × ℚ × ℚ × ℚ) : List (ℚ × ℚ × ℚ × ℚ) :=
  if zoom_history = [] ∨ zoom_history.getLast? ≠ some current_bounds then
    let h := zoom_history ++ [current_bounds]
    if max_history < h.length then h.drop 1 else h
  else zoom_history

lemma save_to_history_length (hist : List (ℚ × ℚ × ℚ × ℚ))
    (cur : ℚ × ℚ × ℚ × ℚ) (h : hist.length ≤ 10) :
    (save_to_history 10 hist cur).length ≤ 10 := by
  unfold save_to_history
  dsimp only
  split_ifs with h1 h2
  · simp only [List.length_drop, List.length_append, List.length_singleton]
    omega
  · simp only [List.length_append, List.length_singleton] at h2 ⊢
    omega
  · exact h

lemma foldl_save_to_history_length (xs : List (ℚ × ℚ × ℚ × ℚ)) :
    ∀ hist, hist.length ≤ 10 →
      (xs.foldl (save_to_history 10) hist).length ≤ 10 := by
  induction xs with
  | nil => intro hist h; simpa using h
  | cons x xs ih =>
    intro hist h
    exact ih _ (save_to_history_length _ _ h)

/-- A concrete full history of 10 distinct bounds tuples. -/
def histEx : List (ℚ × ℚ × ℚ × ℚ) :=
  [(0, 0, 0, 0), (1, 0, 0, 0), (2, 0, 0, 0), (3, 0, 0, 0), (4, 0, 0, 0),
   (5, 0, 0, 0), (6, 0, 0, 0), (7, 0, 0, 0), (8, 0, 0, 0), (9, 0, 0, 0)]

/-- **C9 counterexample.** Pushing a value equal to the most recent entry
onto a full 10-entry history leaves the history unchanged: the oldest
entry is not discarded, so not every push at capacity discards it. -/
theorem save_to_history_duplicate_push :
    histEx.length = 10 ∧
    save_to_history 10 histEx ((9 : ℚ), (0 : ℚ), (0 : ℚ), (0 : ℚ)) = histEx ∧
    histEx ≠ histEx.drop 1 ++ [((9 : ℚ), (0 : ℚ), (0 : ℚ), (0 : ℚ))] := by
  refine ⟨rfl, ?_, ?_⟩
  · unfold save_to_history
    rw [if_neg (by decide)]
  · decide

/-- **C9 (amended).** Starting from an empty history of capacity 10, any
sequence of pushes keeps the length at most 10; a push onto a full history
of a value different from the most recent entry discards the oldest entry
and retains the 9 most recent plus the new one; a push of a value equal to
the most recent entry leaves the history unchanged. -/
theorem zoom_history_spec :
    (∀ xs : List (ℚ × ℚ × ℚ × ℚ),
      (xs.foldl (save_to_history 10) []).length ≤ 10) ∧
    (∀ (hist : List (ℚ × ℚ × ℚ × ℚ)) (x : ℚ × ℚ × ℚ × ℚ),
      hist.length = 10 → hist.getLast? ≠ some x →
      save_to_history 10 hist x = hist.drop 1 ++ [x]) ∧
    (∀ (hist : List (ℚ × ℚ × ℚ × ℚ)) (x : ℚ × ℚ × ℚ × ℚ),
      hist.getLast? = some x → save_to_history 10 hist x = hist) := by
  refine ⟨fun xs => foldl_save_to_history_length xs [] (by simp), ?_, ?_⟩
  · intro hist x hlen hne
    unfold save_to_history
    rw [if_pos (Or.inr hne)]
    have hlt : 10 < (hist ++ [x]).length := by
      simp [hlen]
    rw [if_pos hlt]
    exact List.drop_append_of_le_length (by omega)
  · intro hist x hlast
    unfold save_to_history
    rw [if_neg (by
      rintro (h | h)
      · rw [h] at hlast
        simp at hlast
      · exact h hlast)]

/-- Witness for `zoom_history_spec` at concrete histories. -/
theorem zoom_history_spec_witness :
    (([((1 : ℚ), (0 : ℚ), (0 : ℚ), (0 : ℚ))].foldl
        (save_to_history 10) []).length ≤ 10) ∧
    save_to_history 10 histEx ((10 : ℚ), (0 : ℚ), (0 : ℚ), (0 : ℚ))
        = histEx.drop 1 ++ [((10 : ℚ), (0 : ℚ), (0 : ℚ), (0 : ℚ))] ∧
    save_to_history 10 [((1 : ℚ), (0 : ℚ), (0 : ℚ), (0 : ℚ))]
        ((1 : ℚ), (0 : ℚ), (0 : ℚ), (0 : ℚ))
        = [((1 : ℚ), (0 : ℚ), (0 : ℚ), (0 : ℚ))] :=
  ⟨zoom_history_spec.1 _,
   zoom_history_spec.2.1 histEx _ rfl (by decide),
   zoom_history_spec.2.2 _ _ rfl⟩

end Mandelbrot
